import Mathlib

set_option maxHeartbeats 1000000
set_option maxRecDepth 4000

namespace Xcpp

/-- Static type view of a handle: the type-neutral (erased) view or a concrete
class identified by a numeric id, mirroring the template parameter of
`WeakPtr<T>` (`void` versus a concrete class type). -/
inductive CType where
  | void : CType
  | concrete : Nat → CType
deriving DecidableEq

/-- Model of the C++ class hierarchy consulted by dynamic_cast: a
single-inheritance class table mapping each class id to its direct base class,
if any. -/
structure ClassTable where
  parent : Nat → Option Nat

/-- Fuel-bounded walk from class `c` up the base-class chain looking for `b`,
returning the number of derivation steps when `b` is an ancestor (or `c`
itself). -/
def distToAux (pt : Nat → Option Nat) : Nat → Nat → Nat → Option Nat
  | 0, _, _ => none
  | fuel + 1, c, b =>
    if c = b then some 0
    else
      match pt c with
      | none => none
      | some p => (distToAux pt fuel p b).map (fun d => d + 1)

/-- Number of derivation steps from class `c` up to ancestor `b` (`none` when
`b` is not an ancestor of `c`). Fuel `c + 1` suffices for tables whose parent
ids strictly decrease, as in every concrete table used below. -/
def ClassTable.distTo (ct : ClassTable) (c b : Nat) : Option Nat :=
  distToAux ct.parent (c + 1) c b

/-- Boolean form of `std::is_base_of<b, c>` on concrete classes: `c` is `b`
itself or derives from it. -/
def derivesB (ct : ClassTable) (c b : Nat) : Bool :=
  (ct.distTo c b).isSome

/-- A complete heap object: base address and dynamic (most-derived) type. -/
structure Obj where
  baseAddr : Nat
  dynTy : Nat
deriving DecidableEq

/-- Address of the `a`-subobject of complete object `o`. In this layout model
the subobject for ancestor class `a` lives at the base address plus the number
of derivation steps from the dynamic type up to `a` (null when `o` is not an
`a`). -/
def ClassTable.subAddr (ct : ClassTable) (o : Obj) (a : Nat) : Nat :=
  match ct.distTo o.dynTy a with
  | some d => o.baseAddr + d
  | none => 0

/-- The allocated objects dynamic_cast can inspect. -/
abbrev Heap := List Obj

/-- The complete object (if any) whose `f`-subobject sits at address `p`: the
object a valid `From*` pointer with value `p` refers to. -/
def locate (ct : ClassTable) (hp : Heap) (f p : Nat) : Option Obj :=
  hp.find? (fun o => derivesB ct o.dynTy f && (ct.subAddr o f == p))

/-- C++ `dynamic_cast<To*>` applied to an address holding a `From*`: find the
complete object, then yield its `To`-subobject address when the object is an
instance of `To`, and the null address otherwise. -/
def dynamicCast (ct : ClassTable) (hp : Heap) (f t p : Nat) : Nat :=
  match locate ct hp f p with
  | none => 0
  | some o => if derivesB ct o.dynTy t then ct.subAddr o t else 0

/-- Embeds uintptr_cast (src/base/uintptr_cast.h:15-46), one equation per
enable_if overload: void-to-void passthrough; concrete-to-concrete with a
same-type passthrough short-circuit and otherwise a dynamic_cast; void-to-
concrete passthrough; concrete-to-void passthrough. -/
def uintptr_cast (ct : ClassTable) (hp : Heap) : CType → CType → Nat → Nat
  | CType.void, CType.void, p => p
  | CType.concrete f, CType.concrete t, p =>
      if f = t then p else dynamicCast ct hp f t p
  | CType.void, CType.concrete _, p => p
  | CType.concrete _, CType.void, p => p

/-- State of a ThreadingChecker: the permissive specialization
ThreadingChecker<void> (src/unnamed/part_000:40-56) or the checking
specialization ThreadingChecker<std::mutex> with its recorded sequence id,
where `none` stands for the empty std::thread::id() (unbound). -/
inductive CheckerSt where
  | permissive : CheckerSt
  | checking : Option Nat → CheckerSt
deriving DecidableEq

/-- Checker produced by the ThreadingChecker constructor running on sequence
`s`: the checking variant initializes valid_thread_id_ with
std::this_thread::get_id() (src/unnamed/part_000:96), so it starts bound to
the constructing sequence; the permissive variant carries no state. -/
def ThreadingChecker.init (checking : Bool) (s : Nat) : CheckerSt :=
  if checking then CheckerSt.checking (some s) else CheckerSt.permissive

/-- Embeds CalledOnValidSequence invoked from sequence `s`
(src/unnamed/part_000:47 and 74-82): the permissive variant always succeeds;
the checking variant, when unbound, records `s` and succeeds, and when bound
succeeds exactly if `s` equals the recorded sequence. Returns the result
together with the checker state after the call. -/
def CalledOnValidSequence : CheckerSt → Nat → Bool × CheckerSt
  | CheckerSt.permissive, _ => (true, CheckerSt.permissive)
  | CheckerSt.checking none, s => (true, CheckerSt.checking (some s))
  | CheckerSt.checking (some t), s => (decide (t = s), CheckerSt.checking (some t))

/-- Embeds DetachFromSequence (src/unnamed/part_000:48 and 83-87): the
permissive variant is a no-op; the checking variant clears the recorded
sequence back to the unbound std::thread::id(). -/
def DetachFromSequence : CheckerSt → CheckerSt
  | CheckerSt.permissive => CheckerSt.permissive
  | CheckerSt.checking _ => CheckerSt.checking none

/-- Success value of a CalledOnValidSequence call: the Bool consumed by the
assert in WeakPtr::get. -/
def checkOk (ck : CheckerSt) (s : Nat) : Bool :=
  (CalledOnValidSequence ck s).fst

/-- Embeds the data members of WeakPtr<T> (src/unnamed/part_000:247-250):
`ty` is the static type parameter T; `fid` and `gen` model the weak reference
threading_checker_ to the AffinityToken (the token of generation `gen` of
factory `fid`; `none` for a default-constructed or reset handle); `objIdx` and
`subjPtr` model the weak reference ptr_ to the subject (which heap object it
refers to, and the address locking it yields while the subject lives);
`rawPtr` is raw_ptr_; `hasFlag` models the strong reference ref_ to the
ValidityFlag. A handle with `fid = none` also has an empty ptr_: in the source
both are set together at issuance and cleared together by reset. -/
structure WeakPtr where
  ty : CType
  fid : Option Nat
  gen : Nat
  objIdx : Nat
  subjPtr : Nat
  rawPtr : Nat
  hasFlag : Bool
deriving DecidableEq

/-- Embeds WeakPtr::reset (src/unnamed/part_000:211-216): clears both weak
references, the flag reference and the cached raw address. -/
def WeakPtr.reset (h : WeakPtr) : WeakPtr :=
  { ty := h.ty, fid := none, gen := 0, objIdx := 0, subjPtr := 0, rawPtr := 0,
    hasFlag := false }

/-- Embeds the data members of WeakPtrFactory<T, Threading>
(src/unnamed/part_000:344-349): the subject (its heap index, the static type T
and the stored T* address), the current token generation, whether ref_ still
holds a flag, the current token's checker state, and which Threading
specialization the build selected (true = the checking DEBUG build). -/
structure WeakPtrFactory where
  objIdx : Nat
  staticTy : Nat
  subjAddr : Nat
  gen : Nat
  flagLive : Bool
  curChecker : CheckerSt
  checkingBuild : Bool
deriving DecidableEq

/-- Global state: the class table and object layout (immutable), per-object
liveness of the subjects' external strong-ownership graphs, and the factories'
states. -/
structure World where
  ct : ClassTable
  heap : Heap
  objAlive : Nat → Bool
  facs : Nat → WeakPtrFactory

/-- Outcome of a resolve: a fatal assert failure (wrong sequence in a checking
build) or a pointer value, with address 0 standing for nullptr (empty). -/
inductive GetRes where
  | fatal : GetRes
  | ptr : Nat → GetRes
deriving DecidableEq

/-- Locking the handle's weak reference to the AffinityToken: yields the
current checker exactly when the handle was issued under the factory's current
token generation — the factory holds the only strong reference to the token,
so a replaced generation is destroyed and the weak reference has expired. In
this sequential model the expired() pre-test and the following lock() of
WeakPtr::get read the same state and collapse into this single lookup. -/
def tokenLock (w : World) (h : WeakPtr) : Option CheckerSt :=
  match h.fid with
  | none => none
  | some i => if (w.facs i).gen = h.gen then some (w.facs i).curChecker else none

/-- Locking the handle's weak reference ptr_ to the subject: the stored
address while the subject's strong-ownership graph is alive, nullptr
otherwise. -/
def subjLock (w : World) (h : WeakPtr) : Nat :=
  if w.objAlive h.objIdx then h.subjPtr else 0

/-- Embeds WeakPtr<T>::get for typed handles (src/unnamed/part_000:172-180):
expired token → nullptr; otherwise assert(checker->CalledOnValidSequence()),
fatal on failure; then return ptr_.lock().get(). The rebinding a successful
check may perform affects only later calls and is modelled at the checker
level. -/
def WeakPtr.get (w : World) (s : Nat) (h : WeakPtr) : GetRes :=
  match tokenLock w h with
  | none => GetRes.ptr 0
  | some ck => if checkOk ck s then GetRes.ptr (subjLock w h) else GetRes.fatal

/-- Embeds WeakPtr<void>::get (src/unnamed/part_000:263-271): expired token →
nullptr; otherwise assert the sequence check and return the cached raw_ptr_
reinterpreted as a pointer, without ever locking ptr_. -/
def WeakPtr.getVoid (w : World) (s : Nat) (h : WeakPtr) : GetRes :=
  match tokenLock w h with
  | none => GetRes.ptr 0
  | some ck => if checkOk ck s then GetRes.ptr h.rawPtr else GetRes.fatal

/-- Address value of a typed resolve (0 for nullptr). The fatal case aborts
the C++ program and is mapped to 0 here; every use below sits under
hypotheses or concrete states that exclude it. -/
def resolveA (w : World) (s : Nat) (h : WeakPtr) : Nat :=
  match WeakPtr.get w s h with
  | GetRes.ptr a => a
  | GetRes.fatal => 0

/-- Address value of a type-erased resolve (0 for nullptr). -/
def resolveV (w : World) (s : Nat) (h : WeakPtr) : Nat :=
  match WeakPtr.getVoid w s h with
  | GetRes.ptr a => a
  | GetRes.fatal => 0

/-- Static pointer upcast of the stored subject address from view `u` to an
ancestor view `t` — the implicit weak_ptr<U> to weak_ptr<T> conversion inside
the converting constructor: shift by the fixed subobject offset. -/
def staticUpcastAddr (ct : ClassTable) (u t a : Nat) : Nat :=
  a + (ct.distTo u t).getD 0

/-- Embeds the converting constructor WeakPtr<T>(const WeakPtr<U>&)
(src/unnamed/part_000:110-113): ptr_ converts by the static upcast, raw_ptr_
by uintptr_cast<U, T>, and the token and flag references are copied. -/
def WeakPtr.convertTo (w : World) (t : Nat) (h : WeakPtr) : WeakPtr :=
  match h.ty with
  | CType.concrete u =>
      { h with ty := CType.concrete t,
               subjPtr := staticUpcastAddr w.ct u t h.subjPtr,
               rawPtr := uintptr_cast w.ct w.heap (CType.concrete u)
                           (CType.concrete t) h.rawPtr }
  | CType.void => h

/-- Erasure of a typed handle to the type-neutral view — the WeakPtr<void>
conversions used by the equal overloads and the hash support: every reference
is kept and raw_ptr_ goes through the concrete-to-void uintptr_cast overload,
a passthrough. -/
def WeakPtr.eraseType (w : World) (h : WeakPtr) : WeakPtr :=
  match h.ty with
  | CType.concrete t =>
      { h with ty := CType.void,
               rawPtr := uintptr_cast w.ct w.heap (CType.concrete t)
                           CType.void h.rawPtr }
  | CType.void => h

/-- Embeds the recovering constructor WeakPtr<T>(const WeakPtr<void>&)
(src/unnamed/part_000:120-125): copies ptr_, the token reference and the flag
reference, sets raw_ptr_ = uintptr_cast<void, T>(other.raw_ptr_) — a
passthrough overload — and resets the handle when that raw address is null. -/
def WeakPtr.recoverType (w : World) (t : Nat) (h : WeakPtr) : WeakPtr :=
  let r := uintptr_cast w.ct w.heap CType.void (CType.concrete t) h.rawPtr
  if r = 0 then WeakPtr.reset { h with ty := CType.concrete t, rawPtr := r }
  else { h with ty := CType.concrete t, rawPtr := r }

/-- Embeds the WeakPtr::equal overload family (src/unnamed/part_000:135-170)
with the C++ template recursion unfolded: both void → compare the erased
resolves; both concrete with T = U → compare the resolves; U a base of T →
other.equal(WeakPtr<U>(*this)), a same-type comparison after converting this
handle; T a base of U → the source calls equal(WeakPtr<T>(*this)), comparing
this handle against a copy of itself; unrelated concrete types → false; mixed
void/concrete → erase the concrete side and compare the erased resolves. -/
def WeakPtr.equal (w : World) (s : Nat) (h1 h2 : WeakPtr) : Bool :=
  match h1.ty, h2.ty with
  | CType.void, CType.void => resolveV w s h1 == resolveV w s h2
  | CType.concrete t, CType.concrete u =>
      if t = u then resolveA w s h1 == resolveA w s h2
      else if derivesB w.ct t u then
        resolveA w s h2 == resolveA w s (WeakPtr.convertTo w u h1)
      else if derivesB w.ct u t then
        resolveA w s h1 == resolveA w s h1
      else false
  | CType.concrete _, CType.void =>
      resolveV w s h2 == resolveV w s (WeakPtr.eraseType w h1)
  | CType.void, CType.concrete _ =>
      resolveV w s h1 == resolveV w s (WeakPtr.eraseType w h2)

/-- Embeds operator==(const WeakPtr<T>&) (src/unnamed/part_000:196-198):
get() == other.get() between two handles of the same static type. -/
def WeakPtr.opEq (w : World) (s : Nat) (h1 h2 : WeakPtr) : Bool :=
  resolveA w s h1 == resolveA w s h2

/-- Embeds operator std::uintptr_t (src/unnamed/part_000:209): the cached raw
address. -/
def WeakPtr.toUintptr (h : WeakPtr) : Nat :=
  h.rawPtr

/-- Embeds hash<WeakPtr<void>>::operator() (src/unnamed/part_000:386-390): it
returns the uintptr_t conversion of the handle, i.e. the cached raw address. -/
def hashWeakPtr (h : WeakPtr) : Nat :=
  WeakPtr.toUintptr h

/-- Embeds internal::Flag::HasRefs (src/unnamed/part_000:30-35) applied to the
weak reference obtained from the factory's ref_. The argument models that
weak reference: `none` when ref_ is null so the lock fails, `some n` when the
flag object is alive with `n` strong holders besides the temporary lock
itself, so that the temporary `ref` observes use_count() = n + 1. The source
then answers 1 != ref.use_count(). -/
def Flag.HasRefs : Option Nat → Bool
  | none => false
  | some n => decide (1 ≠ n + 1)

/-- Embeds WeakPtrFactory::HasWeakPtrs (src/unnamed/part_000:342) for a
factory with `outstanding` issued handles currently holding strong references
to its flag: while ref_ is live the strong holders besides the lock temporary
are the factory's own ref_ plus those outstanding handles. -/
def WeakPtrFactory.HasWeakPtrs (F : WeakPtrFactory) (outstanding : Nat) : Bool :=
  Flag.HasRefs (if F.flagLive then some (1 + outstanding) else none)

/-- Embeds the WeakPtrFactory constructor (src/unnamed/part_000:320-327 and
347-348) running on sequence `s`: generation 0, a fresh token whose checker is
built per the Threading variant, and a fresh live flag. -/
def WeakPtrFactory.create (checking : Bool) (s oid ty addr : Nat) : WeakPtrFactory :=
  { objIdx := oid, staticTy := ty, subjAddr := addr, gen := 0, flagLive := true,
    curChecker := ThreadingChecker.init checking s, checkingBuild := checking }

/-- Embeds WeakPtrFactory::GetWeakPtr (src/unnamed/part_000:329-333): a handle
carrying a weak reference to the current token generation, a weak reference
to the subject, a copy of ref_, and raw_ptr_ = uintptr_cast<T, T>(ptr_), the
stored subject address unchanged. -/
def WeakPtrFactory.GetWeakPtr (w : World) (i : Nat) : WeakPtr :=
  { ty := CType.concrete (w.facs i).staticTy, fid := some i,
    gen := (w.facs i).gen, objIdx := (w.facs i).objIdx,
    subjPtr := (w.facs i).subjAddr, rawPtr := (w.facs i).subjAddr,
    hasFlag := (w.facs i).flagLive }

/-- Embeds WeakPtrFactory::InvalidateWeakPtrs (src/unnamed/part_000:336-339)
performed from sequence `s`: threading_ = make_shared<Threading>() destroys
the previous token, whose only strong reference the factory held, and
installs a fresh one whose checker is constructed on `s`; ref_ = nullptr
clears the flag without creating a new one. -/
def WeakPtrFactory.InvalidateWeakPtrs (s : Nat) (F : WeakPtrFactory) : WeakPtrFactory :=
  { F with gen := F.gen + 1, flagLive := false,
           curChecker := ThreadingChecker.init F.checkingBuild s }

/-- Pointwise update of a table indexed by Nat. -/
def updFn {α : Type} (f : Nat → α) (i : Nat) (v : α) : Nat → α :=
  fun j => if j = i then v else f j

/-- External events a trace may perform between issuances and resolves:
InvalidateWeakPtrs on a factory, or destruction of a subject (its external
strong-ownership graph dies). -/
inductive Ev where
  | invalidate : Nat → Ev
  | destroy : Nat → Ev
deriving DecidableEq

/-- One event applied to the world, performed from sequence `s`. -/
def stepEv (s : Nat) (w : World) : Ev → World
  | Ev.invalidate i =>
      { w with facs := updFn w.facs i
                 (WeakPtrFactory.InvalidateWeakPtrs s (w.facs i)) }
  | Ev.destroy oid => { w with objAlive := updFn w.objAlive oid false }

/-- Run a trace of events, all performed from sequence `s`. -/
def runW (s : Nat) (w : World) : List Ev → World
  | [] => w
  | e :: es => runW s (stepEv s w e) es

/-- Concrete class table: class 1 derives from class 0; every other class is a
root, so classes 0 and 2 are unrelated. -/
def ctLin : ClassTable :=
  ⟨fun c => if c = 1 then some 0 else none⟩

/-- Concrete complete object of dynamic type 1 based at address 10; its
class-0 subobject sits at address 11. -/
def objD : Obj :=
  ⟨10, 1⟩

/-- Concrete complete object of dynamic type 0 at address 5. -/
def objA : Obj :=
  ⟨5, 0⟩

/-- Release-build factory for subject objA viewed at type 0. -/
def facA : WeakPtrFactory :=
  WeakPtrFactory.create false 0 0 0 5

/-- World with the single subject objA, alive. -/
def wA : World :=
  { ct := ctLin, heap := [objA], objAlive := fun _ => true, facs := fun _ => facA }

/-- World wA with every subject destroyed while the factories persist. -/
def wADead : World :=
  { ct := ctLin, heap := [objA], objAlive := fun _ => false, facs := fun _ => facA }

/-- Handle issued by facA: typed at class 0, generation 0, addresses 5. -/
def hA : WeakPtr :=
  WeakPtrFactory.GetWeakPtr wA 0

/-- Release-build factory issuing base-typed (class 0) handles for objD's
class-0 subobject at address 11. -/
def facB : WeakPtrFactory :=
  WeakPtrFactory.create false 0 0 0 11

/-- Already-invalidated release-build factory that had issued derived-typed
(class 1) handles for objD at address 10. -/
def facD : WeakPtrFactory :=
  WeakPtrFactory.InvalidateWeakPtrs 0 (WeakPtrFactory.create false 0 0 1 10)

/-- World for the cross-type equality scenario: subject objD alive, factory 0
is facB and every other index holds facD. -/
def w6 : World :=
  { ct := ctLin, heap := [objD], objAlive := fun _ => true,
    facs := fun i => if i = 0 then facB else facD }

/-- Handle typed at the base class 0, issued by facB, resolving to 11. -/
def h6base : WeakPtr :=
  { ty := CType.concrete 0, fid := some 0, gen := 0, objIdx := 0,
    subjPtr := 11, rawPtr := 11, hasFlag := true }

/-- Handle typed at the derived class 1, issued by facD before its
invalidation, hence resolving empty. -/
def h6der : WeakPtr :=
  { ty := CType.concrete 1, fid := some 1, gen := 0, objIdx := 0,
    subjPtr := 10, rawPtr := 10, hasFlag := true }

lemma checkOk_init (b : Bool) (s : Nat) :
    checkOk (ThreadingChecker.init b s) s = true := by
  cases b <;> simp [ThreadingChecker.init, checkOk, CalledOnValidSequence]

lemma stepEv_facs_gen_le (s : Nat) (w : World) (e : Ev) (i : Nat) :
    (w.facs i).gen ≤ ((stepEv s w e).facs i).gen := by
  cases e with
  | invalidate j =>
      by_cases hij : i = j
      · subst hij
        simp [stepEv, updFn, WeakPtrFactory.InvalidateWeakPtrs]
      · simp [stepEv, updFn, hij]
  | destroy oid => simp [stepEv]

lemma runW_facs_gen_le (s : Nat) (evs : List Ev) (w : World) (i : Nat) :
    (w.facs i).gen ≤ ((runW s w evs).facs i).gen := by
  induction evs generalizing w with
  | nil => simp [runW]
  | cons e es ih =>
      exact le_trans (stepEv_facs_gen_le s w e i) (ih (stepEv s w e))

lemma runW_gen_lt_of_invalidate (s : Nat) (evs : List Ev) (w : World) (i : Nat) :
    Ev.invalidate i ∈ evs →
    (w.facs i).gen < ((runW s w evs).facs i).gen := by
  induction evs generalizing w with
  | nil => intro hmem; cases hmem
  | cons e es ih =>
      intro hmem
      rcases List.mem_cons.mp hmem with he | he
      · subst he
        have h1 : ((stepEv s w (Ev.invalidate i)).facs i).gen = (w.facs i).gen + 1 := by
          simp [stepEv, updFn, WeakPtrFactory.InvalidateWeakPtrs]
        have h2 := runW_facs_gen_le s es (stepEv s w (Ev.invalidate i)) i
        have : (w.facs i).gen < ((runW s (stepEv s w (Ev.invalidate i)) es).facs i).gen := by
          omega
        exact this
      · exact lt_of_le_of_lt (stepEv_facs_gen_le s w e i) (ih (stepEv s w e) he)

lemma runW_facs_eq_of_not_invalidate (s : Nat) (evs : List Ev) (w : World) (i : Nat) :
    Ev.invalidate i ∉ evs →
    (runW s w evs).facs i = w.facs i := by
  induction evs generalizing w with
  | nil => intro _; rfl
  | cons e es ih =>
      intro hmem
      have h1 : Ev.invalidate i ∉ es := fun hc => hmem (List.mem_cons_of_mem _ hc)
      have h2 : e ≠ Ev.invalidate i := fun hc => hmem (hc ▸ List.mem_cons_self _ _)
      have h3 : (stepEv s w e).facs i = w.facs i := by
        cases e with
        | invalidate j =>
            have hij : i ≠ j := fun hc => h2 (by rw [hc])
            simp [stepEv, updFn, hij]
        | destroy oid => rfl
      calc (runW s (stepEv s w e) es).facs i = (stepEv s w e).facs i := ih _ h1
        _ = w.facs i := h3

lemma runW_objAlive_eq_of_not_destroy (s : Nat) (evs : List Ev) (w : World) (o : Nat) :
    Ev.destroy o ∉ evs →
    (runW s w evs).objAlive o = w.objAlive o := by
  induction evs generalizing w with
  | nil => intro _; rfl
  | cons e es ih =>
      intro hmem
      have h1 : Ev.destroy o ∉ es := fun hc => hmem (List.mem_cons_of_mem _ hc)
      have h2 : e ≠ Ev.destroy o := fun hc => hmem (hc ▸ List.mem_cons_self _ _)
      have h3 : (stepEv s w e).objAlive o = w.objAlive o := by
        cases e with
        | invalidate j => rfl
        | destroy o2 =>
            have ho : o ≠ o2 := fun hc => h2 (by rw [hc])
            simp [stepEv, updFn, ho]
      calc (runW s (stepEv s w e) es).objAlive o = (stepEv s w e).objAlive o := ih _ h1
        _ = w.objAlive o := h3

lemma stepEv_objAlive_false (s : Nat) (w : World) (e : Ev) (o : Nat) :
    w.objAlive o = false → (stepEv s w e).objAlive o = false := by
  intro h
  cases e with
  | invalidate j => simpa [stepEv] using h
  | destroy o2 =>
      by_cases ho : o = o2 <;> simp [stepEv, updFn, ho, h]

lemma runW_objAlive_false_pres (s : Nat) (evs : List Ev) (w : World) (o : Nat) :
    w.objAlive o = false → (runW s w evs).objAlive o = false := by
  induction evs generalizing w with
  | nil => intro h; exact h
  | cons e es ih =>
      intro h
      exact ih (stepEv s w e) (stepEv_objAlive_false s w e o h)

lemma runW_objAlive_false_of_destroy (s : Nat) (evs : List Ev) (w : World) (o : Nat) :
    Ev.destroy o ∈ evs → (runW s w evs).objAlive o = false := by
  induction evs generalizing w with
  | nil => intro hmem; cases hmem
  | cons e es ih =>
      intro hmem
      rcases List.mem_cons.mp hmem with he | he
      · subst he
        have h1 : (stepEv s w (Ev.destroy o)).objAlive o = false := by
          simp [stepEv, updFn]
        exact runW_objAlive_false_pres s es _ o h1
      · exact ih (stepEv s w e) he

lemma tokenLock_none_of_gen_lt (w : World) (h : WeakPtr) (i : Nat)
    (hf : h.fid = some i) (hlt : h.gen < (w.facs i).gen) :
    tokenLock w h = none := by
  have hne : (w.facs i).gen ≠ h.gen := by omega
  simp [tokenLock, hf, hne]

lemma get_eq_zero_of_tokenLock_none (w : World) (s : Nat) (h : WeakPtr)
    (h0 : tokenLock w h = none) : WeakPtr.get w s h = GetRes.ptr 0 := by
  simp [WeakPtr.get, h0]

/-- Claim C1: for every typed (non-erased) handle, resolve follows exactly
this algorithm — if the weak reference to the AffinityToken is expired it
returns empty; otherwise it locks the token and asserts that the current
execution sequence passes the checker (fatal on mismatch in a checking
build); then it locks the subject weak-reference, returning empty if the
subject is gone and the subject's stored address otherwise. -/
theorem c1_resolve_algorithm (w : World) (s : Nat) (h : WeakPtr) :
    (tokenLock w h = none → WeakPtr.get w s h = GetRes.ptr 0) ∧
    (∀ ck, tokenLock w h = some ck → checkOk ck s = false →
      WeakPtr.get w s h = GetRes.fatal) ∧
    (∀ ck, tokenLock w h = some ck → checkOk ck s = true →
      WeakPtr.get w s h = GetRes.ptr (if w.objAlive h.objIdx then h.subjPtr else 0)) := by
  refine ⟨?_, ?_, ?_⟩
  · intro h0
    simp [WeakPtr.get, h0]
  · intro ck hck hbad
    simp [WeakPtr.get, hck, hbad]
  · intro ck hck hok
    simp [WeakPtr.get, hck, hok, subjLock]

/-- Witness for C1 at a concrete state: the token is alive and the check
passes, so the handle resolves to the subject address 5. -/
theorem c1_resolve_witness : WeakPtr.get wA 0 hA = GetRes.ptr 5 := by
  have h := (c1_resolve_algorithm wA 0 hA).2.2 CheckerSt.permissive (by decide) (by decide)
  exact h.trans (by decide)

/-- Claim C2: invalidation is generation-atomic. A handle issued before an
invalidate of its factory resolves empty after that invalidate, permanently
and from any sequence; a handle issued right after a completed invalidate
resolves to the subject's address as long as no further invalidate of that
factory and no destruction of its subject occur. -/
theorem c2_generation_atomic (s : Nat) (w : World) (f : Nat) :
    (∀ evs s', Ev.invalidate f ∈ evs →
      WeakPtr.get (runW s w evs) s' (WeakPtrFactory.GetWeakPtr w f) = GetRes.ptr 0) ∧
    (∀ evs, Ev.invalidate f ∉ evs →
      Ev.destroy ((w.facs f).objIdx) ∉ evs →
      w.objAlive ((w.facs f).objIdx) = true →
      WeakPtr.get (runW s (stepEv s w (Ev.invalidate f)) evs) s
        (WeakPtrFactory.GetWeakPtr (stepEv s w (Ev.invalidate f)) f) =
        GetRes.ptr ((w.facs f).subjAddr)) := by
  constructor
  · intro evs s' hmem
    have hlt : (WeakPtrFactory.GetWeakPtr w f).gen < ((runW s w evs).facs f).gen := by
      have := runW_gen_lt_of_invalidate s evs w f hmem
      simpa [WeakPtrFactory.GetWeakPtr] using this
    exact get_eq_zero_of_tokenLock_none _ _ _
      (tokenLock_none_of_gen_lt _ _ f rfl hlt)
  · intro evs hninv hndes halive
    have hfacs : (runW s (stepEv s w (Ev.invalidate f)) evs).facs f =
        (stepEv s w (Ev.invalidate f)).facs f :=
      runW_facs_eq_of_not_invalidate s evs _ f hninv
    have hstep : (stepEv s w (Ev.invalidate f)).facs f =
        WeakPtrFactory.InvalidateWeakPtrs s (w.facs f) := by
      simp [stepEv, updFn]
    have halive2 : (runW s (stepEv s w (Ev.invalidate f)) evs).objAlive ((w.facs f).objIdx) = true := by
      have := runW_objAlive_eq_of_not_destroy s evs (stepEv s w (Ev.invalidate f))
        ((w.facs f).objIdx) hndes
      have hsame : (stepEv s w (Ev.invalidate f)).objAlive = w.objAlive := rfl
      rw [this, hsame, halive]
    have hobj : (WeakPtrFactory.InvalidateWeakPtrs s (w.facs f)).objIdx = (w.facs f).objIdx := rfl
    have htok : tokenLock (runW s (stepEv s w (Ev.invalidate f)) evs)
        (WeakPtrFactory.GetWeakPtr (stepEv s w (Ev.invalidate f)) f) =
        some ((stepEv s w (Ev.invalidate f)).facs f).curChecker := by
      simp [tokenLock, WeakPtrFactory.GetWeakPtr, hfacs]
    have hck : checkOk ((stepEv s w (Ev.invalidate f)).facs f).curChecker s = true := by
      rw [hstep]
      exact checkOk_init _ s
    have hidx : (WeakPtrFactory.GetWeakPtr (stepEv s w (Ev.invalidate f)) f).objIdx =
        (w.facs f).objIdx := by
      simp [WeakPtrFactory.GetWeakPtr, hstep, WeakPtrFactory.InvalidateWeakPtrs]
    have hsp : (WeakPtrFactory.GetWeakPtr (stepEv s w (Ev.invalidate f)) f).subjPtr =
        (w.facs f).subjAddr := by
      simp [WeakPtrFactory.GetWeakPtr, hstep, WeakPtrFactory.InvalidateWeakPtrs]
    simp only [WeakPtr.get]
    rw [htok]
    simp [hck, subjLock, hidx, hsp, halive2]

/-- Witness for C2 at a concrete state: the handle issued before the
invalidate resolves empty afterwards even from another sequence, and the
handle issued after the invalidate resolves to the subject address 5. -/
theorem c2_generation_witness :
    WeakPtr.get (runW 0 wA [Ev.invalidate 0]) 3 (WeakPtrFactory.GetWeakPtr wA 0) = GetRes.ptr 0 ∧
    WeakPtr.get (runW 0 (stepEv 0 wA (Ev.invalidate 0)) []) 0
      (WeakPtrFactory.GetWeakPtr (stepEv 0 wA (Ev.invalidate 0)) 0) = GetRes.ptr 5 := by
  constructor
  · exact (c2_generation_atomic 0 wA 0).1 [Ev.invalidate 0] 3 (by decide)
  · exact ((c2_generation_atomic 0 wA 0).2 [] (by decide) (by decide) (by decide)).trans
      (by decide)

/-- Claim C3, evaluated at its failing inputs: HasWeakPtrs answers true on a
freshly constructed factory with zero outstanding handles (the flag's
use_count seen by the lock temporary is 2, and the code tests 1 !=
use_count), and answers false after InvalidateWeakPtrs even with an
outstanding handle, because ref_ was nulled. The claim and the source's own
comment require false and true respectively. -/
theorem c3_has_outstanding_eval :
    WeakPtrFactory.HasWeakPtrs (WeakPtrFactory.create false 0 0 0 5) 0 = true ∧
    WeakPtrFactory.HasWeakPtrs
      (WeakPtrFactory.InvalidateWeakPtrs 0 (WeakPtrFactory.create false 0 0 0 5)) 1 = false := by
  decide

/-- Counterexample for C4 as stated: after InvalidateWeakPtrs the factory
does not hold a live flag of its own — ref_ is null — and a handle issued
after the call carries no flag reference either. -/
theorem c4_invalidate_flag_counterexample :
    ((stepEv 0 wA (Ev.invalidate 0)).facs 0).flagLive = false ∧
    (WeakPtrFactory.GetWeakPtr (stepEv 0 wA (Ev.invalidate 0)) 0).hasFlag = false := by
  decide

/-- Claim C4 as amended: invalidate installs a brand-new AffinityToken (the
generation advances and the new checker is freshly constructed on the
invalidating sequence) but clears the ValidityFlag to null instead of
installing a new one; every handle issued before the call resolves empty
forever, and a handle issued after the call resolves to the subject's
address. -/
theorem c4_invalidate_amended (s : Nat) (w : World) (f : Nat) :
    (((stepEv s w (Ev.invalidate f)).facs f).gen = (w.facs f).gen + 1) ∧
    (((stepEv s w (Ev.invalidate f)).facs f).flagLive = false) ∧
    (((stepEv s w (Ev.invalidate f)).facs f).curChecker =
      ThreadingChecker.init (w.facs f).checkingBuild s) ∧
    (∀ evs s', WeakPtr.get (runW s (stepEv s w (Ev.invalidate f)) evs) s'
      (WeakPtrFactory.GetWeakPtr w f) = GetRes.ptr 0) ∧
    (w.objAlive ((w.facs f).objIdx) = true →
      WeakPtr.get (stepEv s w (Ev.invalidate f)) s
        (WeakPtrFactory.GetWeakPtr (stepEv s w (Ev.invalidate f)) f) =
        GetRes.ptr ((w.facs f).subjAddr)) := by
  have hstep : (stepEv s w (Ev.invalidate f)).facs f =
      WeakPtrFactory.InvalidateWeakPtrs s (w.facs f) := by
    simp [stepEv, updFn]
  refine ⟨by rw [hstep]; rfl, by rw [hstep]; rfl, by rw [hstep]; rfl, ?_, ?_⟩
  · intro evs s'
    have hle := runW_facs_gen_le s evs (stepEv s w (Ev.invalidate f)) f
    have hlt : (WeakPtrFactory.GetWeakPtr w f).gen <
        ((runW s (stepEv s w (Ev.invalidate f)) evs).facs f).gen := by
      have h1 : ((stepEv s w (Ev.invalidate f)).facs f).gen = (w.facs f).gen + 1 := by
        rw [hstep]; rfl
      simp only [WeakPtrFactory.GetWeakPtr]
      omega
    exact get_eq_zero_of_tokenLock_none _ _ _
      (tokenLock_none_of_gen_lt _ _ f rfl hlt)
  · intro halive
    have htok : tokenLock (stepEv s w (Ev.invalidate f))
        (WeakPtrFactory.GetWeakPtr (stepEv s w (Ev.invalidate f)) f) =
        some ((stepEv s w (Ev.invalidate f)).facs f).curChecker := by
      simp [tokenLock, WeakPtrFactory.GetWeakPtr]
    have hck : checkOk ((stepEv s w (Ev.invalidate f)).facs f).curChecker s = true := by
      rw [hstep]
      exact checkOk_init _ s
    have hidx : (WeakPtrFactory.GetWeakPtr (stepEv s w (Ev.invalidate f)) f).objIdx =
        (w.facs f).objIdx := by
      simp [WeakPtrFactory.GetWeakPtr, hstep, WeakPtrFactory.InvalidateWeakPtrs]
    have hsp : (WeakPtrFactory.GetWeakPtr (stepEv s w (Ev.invalidate f)) f).subjPtr =
        (w.facs f).subjAddr := by
      simp [WeakPtrFactory.GetWeakPtr, hstep, WeakPtrFactory.InvalidateWeakPtrs]
    have halive2 : (stepEv s w (Ev.invalidate f)).objAlive ((w.facs f).objIdx) = true := by
      have hsame : (stepEv s w (Ev.invalidate f)).objAlive = w.objAlive := rfl
      rw [hsame, halive]
    simp only [WeakPtr.get]
    rw [htok]
    simp [hck, subjLock, hidx, hsp, halive2]

/-- Witness for C4's amended claim at a concrete state: the post-invalidate
handle resolves to 5, and the pre-invalidate handle resolves empty. -/
theorem c4_invalidate_witness :
    WeakPtr.get (stepEv 0 wA (Ev.invalidate 0)) 0
      (WeakPtrFactory.GetWeakPtr (stepEv 0 wA (Ev.invalidate 0)) 0) = GetRes.ptr 5 ∧
    WeakPtr.get (runW 0 (stepEv 0 wA (Ev.invalidate 0)) []) 3
      (WeakPtrFactory.GetWeakPtr wA 0) = GetRes.ptr 0 := by
  constructor
  · exact ((c4_invalidate_amended 0 wA 0).2.2.2.2 (by decide)).trans (by decide)
  · exact (c4_invalidate_amended 0 wA 0).2.2.2.1 [] 3

/-- Counterexample for C5 as stated: a checking AffinityToken constructed on
sequence 0 does not start in the Unbound state, and its first check, made
from sequence 1, fails instead of recording the caller and succeeding. -/
theorem c5_affinity_counterexample :
    ThreadingChecker.init true 0 ≠ CheckerSt.checking none ∧
    (CalledOnValidSequence (ThreadingChecker.init true 0) 1).fst = false := by
  decide

/-- Claim C5 as amended: the checking AffinityToken starts Bound to the
constructing sequence; a check in Unbound — reachable only through detach —
records the calling sequence and succeeds; a check in Bound succeeds exactly
when the calling sequence equals the recorded one (mismatch being the fatal
case asserted at the call sites); detach discards the recorded sequence and
returns the token to Unbound, permitting rebinding by the next check. -/
theorem c5_affinity_state_machine (s s' s2 : Nat) :
    (ThreadingChecker.init true s = CheckerSt.checking (some s)) ∧
    (CalledOnValidSequence (CheckerSt.checking none) s' =
      (true, CheckerSt.checking (some s'))) ∧
    ((CalledOnValidSequence (CheckerSt.checking (some s)) s').fst = decide (s = s')) ∧
    (DetachFromSequence (CheckerSt.checking (some s)) = CheckerSt.checking none) ∧
    (CalledOnValidSequence (DetachFromSequence (CheckerSt.checking (some s))) s2 =
      (true, CheckerSt.checking (some s2))) := by
  exact ⟨rfl, rfl, rfl, rfl, rfl⟩

/-- Claim C6, evaluated at its failing input: classes 0 (base) and 1
(derived) are statically related, the base-typed handle resolves to 11 and
the derived-typed handle resolves empty, yet equal answers true — the branch
taken when this handle's type is a base of the other's compares the handle
against a copy of itself and ignores the other handle. -/
theorem c6_equal_eval :
    derivesB w6.ct 1 0 = true ∧
    resolveA w6 0 h6base = 11 ∧
    resolveA w6 0 h6der = 0 ∧
    WeakPtr.equal w6 0 h6base h6der = true := by
  decide

/-- Counterexample for C7 as stated: classes 0 and 2 are unrelated, yet
recovering the erased handle at type 2 yields a handle that resolves to the
original subject address 5 — not an empty handle. -/
theorem c7_recover_counterexample :
    derivesB wA.ct 0 2 = false ∧ derivesB wA.ct 2 0 = false ∧
    WeakPtr.get wA 0 (WeakPtr.recoverType wA 2 (WeakPtr.eraseType wA hA)) = GetRes.ptr 5 ∧
    GetRes.ptr 5 ≠ GetRes.ptr 0 := by
  decide

/-- Claim C7 as amended: erase followed by recover at the original concrete
type is the identity; recover at any other concrete type — related or not —
is the same unchecked passthrough, keeping every reference and the cached
address, so the recovered handle resolves exactly as the original; only a
null cached address makes the recovering constructor reset the handle. -/
theorem c7_erase_recover_amended (w : World) (h : WeakPtr) (t u : Nat) :
    (h.ty = CType.concrete t → h.rawPtr ≠ 0 →
      WeakPtr.recoverType w t (WeakPtr.eraseType w h) = h) ∧
    (h.ty = CType.concrete t → h.rawPtr ≠ 0 →
      WeakPtr.recoverType w u (WeakPtr.eraseType w h) = { h with ty := CType.concrete u }) ∧
    (h.ty = CType.concrete t → h.rawPtr = 0 →
      WeakPtr.recoverType w u (WeakPtr.eraseType w h) =
        WeakPtr.reset { h with ty := CType.concrete u }) := by
  obtain ⟨ty, fid, gen, objIdx, subjPtr, rawPtr, hasFlag⟩ := h
  refine ⟨?_, ?_, ?_⟩ <;> intro hty hraw <;> subst hty <;>
    simp [WeakPtr.eraseType, WeakPtr.recoverType, WeakPtr.reset, uintptr_cast, hraw]

/-- Witness for C7's amended claim at a concrete state: erasing the issued
handle and recovering it at its original type 0 gives back the very same
handle. -/
theorem c7_erase_recover_witness :
    WeakPtr.recoverType wA 0 (WeakPtr.eraseType wA hA) = hA := by
  exact (c7_erase_recover_amended wA hA 0 0).1 (by decide) (by decide)

/-- Claim C8: for concretely typed, statically related source and target
views the conversion is a checked polymorphic conversion — it returns the
target-subobject address of the located complete object when that object is
an instance of the target type and the null address when it is not — while
the same-type and the type-neutral overloads are pure passthrough. -/
theorem c8_uintptr_cast_correct (ct : ClassTable) (hp : Heap) (f t p : Nat) (o : Obj)
    (_hrel : derivesB ct f t = true ∨ derivesB ct t f = true)
    (hne : f ≠ t) (hloc : locate ct hp f p = some o) :
    (derivesB ct o.dynTy t = true →
      uintptr_cast ct hp (CType.concrete f) (CType.concrete t) p = ClassTable.subAddr ct o t) ∧
    (derivesB ct o.dynTy t = false →
      uintptr_cast ct hp (CType.concrete f) (CType.concrete t) p = 0) ∧
    (uintptr_cast ct hp (CType.concrete f) (CType.concrete f) p = p) ∧
    (uintptr_cast ct hp CType.void CType.void p = p) := by
  refine ⟨?_, ?_, by simp [uintptr_cast], rfl⟩
  · intro hin
    simp [uintptr_cast, hne, dynamicCast, hloc, hin]
  · intro hout
    simp [uintptr_cast, hne, dynamicCast, hloc, hout]

/-- Witness for C8 at concrete states: casting the derived view of objD to
its base view yields the base-subobject address 11, and casting the base
view of the plain base object objA down to the derived type 1 yields null,
since objA is not an instance of class 1. -/
theorem c8_uintptr_cast_witness :
    uintptr_cast ctLin [objD] (CType.concrete 1) (CType.concrete 0) 10 = 11 ∧
    uintptr_cast ctLin [objA] (CType.concrete 0) (CType.concrete 1) 5 = 0 := by
  constructor
  · exact ((c8_uintptr_cast_correct ctLin [objD] 1 0 10 objD (Or.inl (by decide))
      (by decide) (by decide)).1 (by decide)).trans (by decide)
  · exact (c8_uintptr_cast_correct ctLin [objA] 0 1 5 objA (Or.inr (by decide))
      (by decide) (by decide)).2.1 (by decide)

/-- Claim C9: a type-erased handle whose AffinityToken is alive resolves to
the raw address cached at issuance without consulting the subject
weak-reference — the result is the same for every assignment of subject
liveness, hence non-empty after subject destruction whenever the cached
address is non-null. -/
theorem c9_erased_resolve (w : World) (s : Nat) (h : WeakPtr) (ck : CheckerSt)
    (hck : tokenLock w h = some ck) (hok : checkOk ck s = true) :
    WeakPtr.getVoid w s h = GetRes.ptr h.rawPtr ∧
    (∀ af : Nat → Bool,
      WeakPtr.getVoid { w with objAlive := af } s h = GetRes.ptr h.rawPtr) ∧
    (h.rawPtr ≠ 0 → WeakPtr.getVoid w s h ≠ GetRes.ptr 0) := by
  have hck2 : ∀ af : Nat → Bool, tokenLock { w with objAlive := af } h = some ck := by
    intro af
    exact hck
  refine ⟨by simp [WeakPtr.getVoid, hck, hok], ?_, ?_⟩
  · intro af
    simp [WeakPtr.getVoid, hck2 af, hok]
  · intro hraw
    simp [WeakPtr.getVoid, hck, hok, hraw]

/-- Witness for C9 at a concrete state: in the world where every subject is
destroyed but the token generation is unchanged, the erased handle still
resolves to the cached address 5. -/
theorem c9_erased_resolve_witness :
    WeakPtr.getVoid wADead 0 (WeakPtr.eraseType wADead hA) = GetRes.ptr 5 := by
  exact ((c9_erased_resolve wADead 0 (WeakPtr.eraseType wADead hA) CheckerSt.permissive
    (by decide) (by decide)).1).trans (by decide)

/-- Claim C10: a handle's hash is the raw address cached at issuance and is
unaffected by invalidation and by subject destruction, both of which make
the handle resolve empty; two same-type handles that both resolve empty
compare equal through operator== while keeping distinct hash values whenever
their cached addresses differ. -/
theorem c10_hash_raw (w : World) (f : Nat) (s : Nat) :
    (hashWeakPtr (WeakPtrFactory.GetWeakPtr w f) = (w.facs f).subjAddr) ∧
    (∀ h : WeakPtr, hashWeakPtr h = h.rawPtr) ∧
    (∀ evs s', Ev.invalidate f ∈ evs →
      WeakPtr.get (runW s w evs) s' (WeakPtrFactory.GetWeakPtr w f) = GetRes.ptr 0 ∧
      hashWeakPtr (WeakPtrFactory.GetWeakPtr w f) = (w.facs f).subjAddr) ∧
    (∀ evs s', Ev.destroy ((w.facs f).objIdx) ∈ evs → Ev.invalidate f ∉ evs →
      checkOk (w.facs f).curChecker s' = true →
      WeakPtr.get (runW s w evs) s' (WeakPtrFactory.GetWeakPtr w f) = GetRes.ptr 0 ∧
      hashWeakPtr (WeakPtrFactory.GetWeakPtr w f) = (w.facs f).subjAddr) ∧
    (∀ (w2 : World) (s2 : Nat) (h1 h2 : WeakPtr) (c : Nat),
      h1.ty = CType.concrete c → h2.ty = CType.concrete c →
      resolveA w2 s2 h1 = 0 → resolveA w2 s2 h2 = 0 →
      WeakPtr.opEq w2 s2 h1 h2 = true) ∧
    (∀ h1 h2 : WeakPtr, h1.rawPtr ≠ h2.rawPtr → hashWeakPtr h1 ≠ hashWeakPtr h2) := by
  refine ⟨rfl, fun h => rfl, ?_, ?_, ?_, ?_⟩
  · intro evs s' hmem
    refine ⟨?_, rfl⟩
    have hlt : (WeakPtrFactory.GetWeakPtr w f).gen < ((runW s w evs).facs f).gen := by
      have := runW_gen_lt_of_invalidate s evs w f hmem
      simpa [WeakPtrFactory.GetWeakPtr] using this
    exact get_eq_zero_of_tokenLock_none _ _ _
      (tokenLock_none_of_gen_lt _ _ f rfl hlt)
  · intro evs s' hdes hninv hok
    refine ⟨?_, rfl⟩
    have hfacs : (runW s w evs).facs f = w.facs f :=
      runW_facs_eq_of_not_invalidate s evs w f hninv
    have htok : tokenLock (runW s w evs) (WeakPtrFactory.GetWeakPtr w f) =
        some (w.facs f).curChecker := by
      simp [tokenLock, WeakPtrFactory.GetWeakPtr, hfacs]
    have hdead : (runW s w evs).objAlive ((w.facs f).objIdx) = false :=
      runW_objAlive_false_of_destroy s evs w _ hdes
    have hidx : (WeakPtrFactory.GetWeakPtr w f).objIdx = (w.facs f).objIdx := rfl
    simp only [WeakPtr.get]
    rw [htok]
    simp [hok, subjLock, hidx, hdead]
  · intro w2 s2 h1 h2 c hty1 hty2 hr1 hr2
    simp [WeakPtr.opEq, hr1, hr2]
  · intro h1 h2 hne
    simpa [hashWeakPtr, WeakPtr.toUintptr] using hne

/-- Witness for C10 at concrete states: the issued handle's hash is its
subject address 5; in the dead world it and a sibling handle with cached
address 9 both resolve empty and compare equal while their hashes differ. -/
theorem c10_hash_raw_witness :
    hashWeakPtr (WeakPtrFactory.GetWeakPtr wA 0) = 5 ∧
    WeakPtr.opEq wADead 0 hA { hA with subjPtr := 9, rawPtr := 9 } = true ∧
    hashWeakPtr hA ≠ hashWeakPtr { hA with subjPtr := 9, rawPtr := 9 } := by
  refine ⟨(c10_hash_raw wA 0 0).1.trans (by decide), ?_, ?_⟩
  · exact (c10_hash_raw wA 0 0).2.2.2.2.1 wADead 0 hA { hA with subjPtr := 9, rawPtr := 9 } 0
      (by decide) (by decide) (by decide) (by decide)
  · exact (c10_hash_raw wA 0 0).2.2.2.2.2 hA { hA with subjPtr := 9, rawPtr := 9 } (by decide)

end Xcpp
